import Mathlib

/-!
Verification of the Lighttr HTTP request debugger against its specification.

The Go sources are shallowly embedded:
* Go `map[string]string` values are modelled as association lists
  (`List (String × String)`) with first-match lookup; iteration follows
  list order (Go map iteration order is unspecified).
* `url.Values` and `http.Header` (`map[string][]string`) are modelled as
  `List (String × List String)`.
* File-system and network effects are parameters: `fileExists` stands for
  `os.Stat`/`os.IsNotExist`, a `World` structure carries the certificate
  loader and the transport outcome of `http.Client.Do`.
* `time.Time` values are opaque; a timestamp is carried as its serialized
  string, and durations as natural numbers.
* Go errors are `Except String`.
-/

namespace Lighttr

/-! ### Authentication and request data model (internal/request/request.go) -/

def NoAuth : String := "none"

def BasicAuth : String := "basic"

def APIKeyAuth : String := "apikey"

def MutualTLSAuth : String := "mtls"

/-- `AuthData` from request.go: the authentication configuration.
Go's `AuthType` is a string type, so unrecognized tags are representable. -/
structure AuthData where
  type : String
  username : String
  password : String
  apiKey : String
  certFile : String
  keyFile : String
deriving Repr, DecidableEq

/-- `RequestData` from request.go. `timestamp` is the opaque serialized
`time.Time`. -/
structure RequestData where
  method : String
  url : String
  headers : List (String × String)
  queryParams : List (String × String)
  body : String
  timestamp : String
  auth : AuthData
deriving Repr, DecidableEq

/-- `ResponseData` from request.go. `responseTime` is the measured duration. -/
structure ResponseData where
  statusCode : Nat
  headers : List (String × String)
  body : String
  responseTime : Nat
  error : String
deriving Repr, DecidableEq

/-- `NewRequestData` from request.go: defaults with method GET and NoAuth;
`now` stands for `time.Now()`. -/
def NewRequestData (now : String) : RequestData :=
  { method := "GET", url := "", headers := [], queryParams := [],
    body := "", timestamp := now,
    auth := { type := NoAuth, username := "", password := "",
              apiKey := "", certFile := "", keyFile := "" } }

/-! ### URL model (fragment of net/url used by the code) -/

structure URL where
  scheme : String
  host : String
  path : String
  rawQuery : String
deriving Repr, DecidableEq

/-! Structural string splitting and joining (the core `String.splitOn`
and `String.intercalate` are position-based and do not reduce in the
kernel; these list-based versions agree with them for the non-empty
separators used here). -/

def charsSplitOnAux (sep : List Char) : Nat → List Char → List Char →
    List (List Char)
  | 0, s, acc => [acc.reverse ++ s]
  | _ + 1, [], acc => [acc.reverse]
  | fuel + 1, c :: rest, acc =>
    if sep.isPrefixOf (c :: rest) then
      acc.reverse ::
        charsSplitOnAux sep fuel ((c :: rest).drop sep.length) []
    else
      charsSplitOnAux sep fuel rest (c :: acc)

/-- `String.splitOn` for a non-empty separator. -/
def splitOnStr (s sep : String) : List String :=
  (charsSplitOnAux sep.toList (s.toList.length + 1) s.toList []).map
    String.mk

/-- `String.intercalate`. -/
def joinWithSep (sep : String) : List String → String
  | [] => ""
  | [s] => s
  | s :: rest => s ++ sep ++ joinWithSep sep rest

def isCtlChar (c : Char) : Bool :=
  c.toNat < 0x20 || c.toNat == 0x7f

/-- Modelled fragment of `net/url.Parse` for the URL shapes this program
handles: control characters are rejected (as in Go); a `://` marker splits
scheme from authority; the authority runs to the first `/`; everything
after the first `?` is the raw query.  A string without `://` parses with
empty scheme and host (as Go does for e.g. `"not-a-url"`). -/
def parseURL (s : String) : Except String URL :=
  if s.toList.any isCtlChar then
    .error "net/url: invalid control character in URL"
  else
    let (beforeQ, rawQuery) :=
      match splitOnStr s "?" with
      | [] => (s, "")
      | [p] => (p, "")
      | p :: rest => (p, joinWithSep "?" rest)
    match splitOnStr beforeQ "://" with
    | [] => .ok ⟨"", "", beforeQ, rawQuery⟩
    | [p] => .ok ⟨"", "", p, rawQuery⟩
    | sch :: rest =>
      let after := joinWithSep "://" rest
      match splitOnStr after "/" with
      | [] => .ok ⟨sch, after, "", rawQuery⟩
      | [h] => .ok ⟨sch, h, "", rawQuery⟩
      | h :: ps => .ok ⟨sch, h, "/" ++ joinWithSep "/" ps, rawQuery⟩

/-! ### Validate (request.go, `func (r *RequestData) Validate() error`)

`fileExists` stands for the `os.Stat`/`os.IsNotExist` probe: `fileExists p`
is true exactly when the stat does not report "does not exist". -/

def validate (fileExists : String → Bool) (r : RequestData) :
    Except String Unit :=
  if r.method = "" then .error "method cannot be empty"
  else if r.url = "" then .error "URL cannot be empty"
  else
    match parseURL r.url with
    | .error e => .error ("invalid URL: " ++ e)
    | .ok u =>
      if u.scheme = "" || u.host = "" then
        .error "invalid URL: must include scheme and host"
      else
        if r.auth.type = BasicAuth then
          if r.auth.username = "" then
            .error "username is required for basic authentication"
          else if r.auth.password = "" then
            .error "password is required for basic authentication"
          else .ok ()
        else if r.auth.type = APIKeyAuth then
          if r.auth.apiKey = "" then
            .error "API key is required for API key authentication"
          else .ok ()
        else if r.auth.type = MutualTLSAuth then
          if r.auth.certFile = "" then
            .error "certificate file is required for mutual TLS authentication"
          else if r.auth.keyFile = "" then
            .error "key file is required for mutual TLS authentication"
          else if !fileExists r.auth.certFile then
            .error ("certificate file does not exist: " ++ r.auth.certFile)
          else if !fileExists r.auth.keyFile then
            .error ("key file does not exist: " ++ r.auth.keyFile)
          else .ok ()
        else if r.auth.type = NoAuth then .ok ()
        else .error ("invalid authentication type: " ++ r.auth.type)

/-! ### The spec's ordered validation rules (spec §4.1)

Each rule is a pass/fail bit together with the error reported when it is
the first failing rule.  This is the specification-side description to be
compared with `validate`. -/

structure Rule where
  passes : Bool
  err : String
deriving Repr, DecidableEq

def urlRulePasses (r : RequestData) : Bool :=
  match parseURL r.url with
  | .error _ => false
  | .ok u => !(u.scheme = "" || u.host = "")

def urlRuleErr (r : RequestData) : String :=
  match parseURL r.url with
  | .error e => "invalid URL: " ++ e
  | .ok _ => "invalid URL: must include scheme and host"

def authRules (fileExists : String → Bool) (a : AuthData) : List Rule :=
  if a.type = BasicAuth then
    [⟨a.username != "", "username is required for basic authentication"⟩,
     ⟨a.password != "", "password is required for basic authentication"⟩]
  else if a.type = APIKeyAuth then
    [⟨a.apiKey != "", "API key is required for API key authentication"⟩]
  else if a.type = MutualTLSAuth then
    [⟨a.certFile != "", "certificate file is required for mutual TLS authentication"⟩,
     ⟨a.keyFile != "", "key file is required for mutual TLS authentication"⟩,
     ⟨fileExists a.certFile, "certificate file does not exist: " ++ a.certFile⟩,
     ⟨fileExists a.keyFile, "key file does not exist: " ++ a.keyFile⟩]
  else if a.type = NoAuth then []
  else [⟨false, "invalid authentication type: " ++ a.type⟩]

def validationRules (fileExists : String → Bool) (r : RequestData) :
    List Rule :=
  ⟨r.method != "", "method cannot be empty"⟩ ::
  ⟨r.url != "", "URL cannot be empty"⟩ ::
  ⟨urlRulePasses r, urlRuleErr r⟩ ::
  authRules fileExists r.auth

/-- First failure wins: the error of the first rule that does not pass,
success when every rule passes. -/
def firstFailure (rules : List Rule) : Except String Unit :=
  match rules.find? (fun rule => !rule.passes) with
  | some rule => .error rule.err
  | none => .ok ()

theorem firstFailure_ok_iff (rules : List Rule) :
    firstFailure rules = .ok () ↔ ∀ rule ∈ rules, rule.passes = true := by
  unfold firstFailure
  cases h : rules.find? (fun rule => !rule.passes) with
  | none =>
    simp only [List.find?_eq_none, Bool.not_eq_true'] at h
    simpa using h
  | some rule =>
    have hmem := List.mem_of_find?_eq_some h
    have hp := List.find?_some h
    simp only [Bool.not_eq_true'] at hp
    simp only [reduceCtorEq, false_iff, not_forall]
    exact ⟨rule, hmem, by simp [hp]⟩

theorem validate_eq_firstFailure_aux (fileExists : String → Bool)
    (r : RequestData) :
    validate fileExists r = firstFailure (validationRules fileExists r) := by
  unfold validate validationRules firstFailure authRules urlRulePasses urlRuleErr
  by_cases hm : r.method = ""
  · simp [hm, List.find?]
  · have hm' : (r.method != "") = true := by simp [hm]
    by_cases hu : r.url = ""
    · simp [hm, hm', hu, List.find?]
    · have hu' : (r.url != "") = true := by simp [hu]
      cases hp : parseURL r.url with
      | error e => simp [hm, hm', hu, hu', hp, List.find?]
      | ok u =>
        by_cases hsh : (u.scheme = "" || u.host = "") = true
        · simp [hm, hm', hu, hu', hp, hsh, List.find?]
        · have hsh' : (u.scheme = "" || u.host = "") = false := by
            simpa using hsh
          by_cases hb : r.auth.type = BasicAuth
          · by_cases h1 : r.auth.username = ""
            · simp [hm, hm', hu, hu', hp, hsh', hb, h1, BasicAuth,
                List.find?]
            · have h1' : (r.auth.username != "") = true := by simp [h1]
              by_cases h2 : r.auth.password = ""
              · simp [hm, hm', hu, hu', hp, hsh', hb, h1, h1', h2,
                  BasicAuth, List.find?]
              · have h2' : (r.auth.password != "") = true := by simp [h2]
                simp [hm, hm', hu, hu', hp, hsh', hb, h1, h1', h2, h2',
                  BasicAuth, List.find?]
          · by_cases hk : r.auth.type = APIKeyAuth
            · by_cases h1 : r.auth.apiKey = ""
              · simp [hm, hm', hu, hu', hp, hsh', hb, hk, h1, BasicAuth,
                  APIKeyAuth, List.find?]
              · have h1' : (r.auth.apiKey != "") = true := by simp [h1]
                simp [hm, hm', hu, hu', hp, hsh', hb, hk, h1, h1',
                  BasicAuth, APIKeyAuth, List.find?]
            · by_cases hmt : r.auth.type = MutualTLSAuth
              · by_cases h1 : r.auth.certFile = ""
                · simp [hm, hm', hu, hu', hp, hsh', hb, hk, hmt, h1,
                    BasicAuth, APIKeyAuth, MutualTLSAuth, List.find?]
                · have h1' : (r.auth.certFile != "") = true := by simp [h1]
                  by_cases h2 : r.auth.keyFile = ""
                  · simp [hm, hm', hu, hu', hp, hsh', hb, hk, hmt, h1, h1',
                      h2, BasicAuth, APIKeyAuth, MutualTLSAuth, List.find?]
                  · have h2' : (r.auth.keyFile != "") = true := by simp [h2]
                    by_cases h3 : fileExists r.auth.certFile = true
                    · by_cases h4 : fileExists r.auth.keyFile = true
                      · simp [hm, hm', hu, hu', hp, hsh', hb, hk, hmt, h1,
                          h1', h2, h2', h3, h4, BasicAuth, APIKeyAuth,
                          MutualTLSAuth, List.find?]
                      · have h4' : fileExists r.auth.keyFile = false := by
                          simpa using h4
                        simp [hm, hm', hu, hu', hp, hsh', hb, hk, hmt, h1,
                          h1', h2, h2', h3, h4', BasicAuth, APIKeyAuth,
                          MutualTLSAuth, List.find?]
                    · have h3' : fileExists r.auth.certFile = false := by
                        simpa using h3
                      simp [hm, hm', hu, hu', hp, hsh', hb, hk, hmt, h1,
                        h1', h2, h2', h3', BasicAuth, APIKeyAuth,
                        MutualTLSAuth, List.find?]
              · by_cases hn : r.auth.type = NoAuth
                · simp [hm, hm', hu, hu', hp, hsh', hb, hk, hmt, hn,
                    BasicAuth, APIKeyAuth, MutualTLSAuth, NoAuth,
                    List.find?]
                · simp only [BasicAuth, APIKeyAuth, MutualTLSAuth,
                    NoAuth] at hb hk hmt hn
                  simp [hm, hm', hu, hu', hp, hsh', hb, hk, hmt, hn,
                    BasicAuth, APIKeyAuth, MutualTLSAuth, NoAuth,
                    List.find?]

/-! ### Multi-valued maps (`url.Values`, `http.Header`) -/

/-- Model of a Go `map[string][]string` as an association list.  Go maps
are unordered; the list order is only the model's bookkeeping. -/
abbrev MultiMap := List (String × List String)

/-- Values at a key (Go: `m[k]`; a missing key yields nil). -/
def mmGet (m : MultiMap) (k : String) : List String :=
  match m.find? (fun kv => kv.1 == k) with
  | some kv => kv.2
  | none => []

/-- `m[k] = append(m[k], v)`: append one value at a key. -/
def mmAdd (m : MultiMap) (k v : String) : MultiMap :=
  match m with
  | [] => [(k, [v])]
  | kv :: rest =>
    if kv.1 == k then (kv.1, kv.2 ++ [v]) :: rest
    else kv :: mmAdd rest k v

/-- `m[k] = []string{v}`: replace all values at a key. -/
def mmSet (m : MultiMap) (k v : String) : MultiMap :=
  match m with
  | [] => [(k, [v])]
  | kv :: rest =>
    if kv.1 == k then (kv.1, [v]) :: rest
    else kv :: mmSet rest k v

/-- Add every pair of `kvs` in order, transforming each key by `f`
(`f` is the identity for `url.Values`, key canonicalization for
`http.Header`). -/
def mmAddAll (m : MultiMap) (kvs : List (String × String))
    (f : String → String) : MultiMap :=
  kvs.foldl (fun acc kv => mmAdd acc (f kv.1) kv.2) m

/-! ### Query escaping and parsing (fragment of net/url) -/

def upperHexDigit (n : Nat) : Char :=
  if n < 10 then Char.ofNat (48 + n) else Char.ofNat (55 + n)

/-- Go `shouldEscape(c, encodeQueryComponent)`: alphanumerics and
`-_.~` are kept, everything else escaped (space specially as `+`). -/
def queryShouldEscape (c : Char) : Bool :=
  !(c.isAlphanum || c == '-' || c == '_' || c == '.' || c == '~')

/-- Go `url.QueryEscape` on the character's byte; the inputs this
development evaluates are ASCII (multi-byte runes are outside the
modelled fragment). -/
def queryEscape (s : String) : String :=
  String.mk (s.toList.foldr (fun c acc =>
    if c == ' ' then '+' :: acc
    else if queryShouldEscape c then
      '%' :: upperHexDigit (c.toNat / 16) :: upperHexDigit (c.toNat % 16)
        :: acc
    else c :: acc) [])

def hexDigitVal (c : Char) : Option Nat :=
  if 48 ≤ c.toNat ∧ c.toNat ≤ 57 then some (c.toNat - 48)
  else if 65 ≤ c.toNat ∧ c.toNat ≤ 70 then some (c.toNat - 55)
  else if 97 ≤ c.toNat ∧ c.toNat ≤ 102 then some (c.toNat - 87)
  else none

def queryUnescapeChars : List Char → Option (List Char)
  | [] => some []
  | '%' :: h1 :: h2 :: rest => do
    let a ← hexDigitVal h1
    let b ← hexDigitVal h2
    let tail ← queryUnescapeChars rest
    pure (Char.ofNat (16 * a + b) :: tail)
  | '%' :: _ => none
  | '+' :: rest => (queryUnescapeChars rest).map (' ' :: ·)
  | c :: rest => (queryUnescapeChars rest).map (c :: ·)

/-- Go `url.QueryUnescape`. -/
def queryUnescape (s : String) : Option String :=
  (queryUnescapeChars s.toList).map String.mk

def cutEq (s : String) : String × String :=
  match splitOnStr s "=" with
  | [] => (s, "")
  | [k] => (k, "")
  | k :: rest => (k, joinWithSep "=" rest)

/-- Go `url.ParseQuery` as used through `URL.Query()`, which discards the
error: pairs are split on `&`; empty segments, segments containing `;`,
and segments with invalid escapes are dropped; the rest are unescaped and
appended. -/
def parseQuery (raw : String) : MultiMap :=
  (splitOnStr raw "&").foldl (fun m seg =>
    if seg = "" then m
    else if seg.toList.contains ';' then m
    else
      let kv := cutEq seg
      match queryUnescape kv.1, queryUnescape kv.2 with
      | some k, some v => mmAdd m k v
      | _, _ => m) []

/-- Lexicographic comparison on code points (byte order for the ASCII
strings handled here), as Go's `sort.Strings` compares keys. -/
def charListLe : List Char → List Char → Bool
  | [], _ => true
  | _ :: _, [] => false
  | a :: as, b :: bs =>
    if a.toNat < b.toNat then true
    else if b.toNat < a.toNat then false
    else charListLe as bs

def strLe (a b : String) : Bool := charListLe a.toList b.toList

def insertByKey (kv : String × List String) : MultiMap → MultiMap
  | [] => [kv]
  | kv2 :: rest =>
    if strLe kv.1 kv2.1 then kv :: kv2 :: rest
    else kv2 :: insertByKey kv rest

def sortByKey (m : MultiMap) : MultiMap := m.foldr insertByKey []

/-- Go `url.Values.Encode`: keys sorted, each value emitted as
`escape(k)=escape(v)`, pairs joined with `&`. -/
def encodeValues (m : MultiMap) : String :=
  joinWithSep "&" ((sortByKey m).foldr (fun kv acc =>
    kv.2.map (fun v => queryEscape kv.1 ++ "=" ++ queryEscape v) ++ acc)
    [])

/-! ### HTTP headers (fragment of net/http, net/textproto) -/

/-- RFC token characters, as in Go's `validHeaderFieldByte`. -/
def isTokenChar (c : Char) : Bool :=
  c.isAlphanum || c == '!' || c == '#' || c == '$' || c == '%' ||
  c == '&' || c.toNat == 39 || c == '*' || c == '+' || c == '-' ||
  c == '.' || c == '^' || c == '_' || c.toNat == 96 || c == '|' ||
  c == '~'

/-- `textproto.CanonicalMIMEHeaderKey`: a key with a non-token character
is left alone; otherwise the first letter and each letter after a hyphen
is upper-cased and every other letter lower-cased. -/
def canonicalMIMEHeaderKey (k : String) : String :=
  if k.toList.any (fun c => !isTokenChar c) then k
  else
    String.mk ((k.toList.foldl (fun st c =>
      let c2 := if st.2 then c.toUpper else c.toLower
      (c2 :: st.1, c == '-')) (([] : List Char), true)).1.reverse)

abbrev Header := MultiMap

/-- `http.Header.Add`: canonicalize the key, append the value. -/
def headerAdd (h : Header) (k v : String) : Header :=
  mmAdd h (canonicalMIMEHeaderKey k) v

/-- `http.Header.Set`: canonicalize the key, replace the values. -/
def headerSet (h : Header) (k v : String) : Header :=
  mmSet h (canonicalMIMEHeaderKey k) v

/-- `http.Header.Get`: first value at the canonical key, `""` if none. -/
def headerGet (h : Header) (k : String) : String :=
  match mmGet h (canonicalMIMEHeaderKey k) with
  | [] => ""
  | v :: _ => v

/-- `http.Header.Values`: all values at the canonical key. -/
def headerValues (h : Header) (k : String) : List String :=
  mmGet h (canonicalMIMEHeaderKey k)

/-! ### Base64 (`base64.StdEncoding`, used by `SetBasicAuth`) -/

def base64Alphabet : String :=
  "ABCDEFGHIJKLMNOPQRSTUVWXYZabcdefghijklmnopqrstuvwxyz0123456789+/"

def base64Char (n : Nat) : Char := base64Alphabet.toList.getD n 'A'

def base64EncodeBytes : List Nat → List Char
  | [] => []
  | [b1] => [base64Char (b1 / 4), base64Char (b1 % 4 * 16), '=', '=']
  | [b1, b2] =>
    [base64Char (b1 / 4), base64Char (b1 % 4 * 16 + b2 / 16),
     base64Char (b2 % 16 * 4), '=']
  | b1 :: b2 :: b3 :: rest =>
    base64Char (b1 / 4) :: base64Char (b1 % 4 * 16 + b2 / 16) ::
    base64Char (b2 % 16 * 4 + b3 / 64) :: base64Char (b3 % 64) ::
    base64EncodeBytes rest

/-- `base64.StdEncoding.EncodeToString` over the string's UTF-8 bytes. -/
def base64Encode (s : String) : String :=
  String.mk (base64EncodeBytes (s.toUTF8.toList.map (fun b => b.toNat)))

/-! ### Execute (request.go, `func (r *RequestData) Execute()`) -/

/-- Modelled `URL.String()` for the absolute-URL fragment above. -/
def urlString (u : URL) : String :=
  (if u.scheme = "" then "" else u.scheme ++ "://") ++ u.host ++ u.path ++
  (if u.rawQuery = "" then "" else "?" ++ u.rawQuery)

/-- Execute's query merge (request.go lines `q := baseURL.Query()`,
`q.Add(key, value)` for each pair, `baseURL.RawQuery = q.Encode()`). -/
def mergeQueryParams (u : URL) (params : List (String × String)) : URL :=
  { u with rawQuery :=
      encodeValues (mmAddAll (parseQuery u.rawQuery) params id) }

/-- `net/http` method validity (`validMethod`), checked by
`http.NewRequest`: non-empty, token characters only. -/
def validMethod (s : String) : Bool :=
  s != "" && s.toList.all isTokenChar

/-- The outbound header assembly in `Execute`: user headers are added in
order with `Header.Add`; then Basic auth sets
`Authorization: Basic <base64(user:pass)>` (`SetBasicAuth`), ApiKey auth
appends `Authorization: Bearer <key>` when the key is non-empty, and
MutualTLS / None / other tags leave the headers unchanged. -/
def buildHeader (r : RequestData) : Header :=
  let base := r.headers.foldl (fun h kv => headerAdd h kv.1 kv.2) []
  if r.auth.type = BasicAuth then
    headerSet base "Authorization"
      ("Basic " ++ base64Encode (r.auth.username ++ ":" ++ r.auth.password))
  else if r.auth.type = APIKeyAuth then
    if r.auth.apiKey != "" then
      headerAdd base "Authorization" ("Bearer " ++ r.auth.apiKey)
    else base
  else base

structure BuiltRequest where
  method : String
  urlStr : String
  header : Header
  body : String
deriving Repr, DecidableEq

/-- Outcome of `http.Client.Do` together with the subsequent body drain:
either a transport-level error, or a response whose `io.ReadAll` may
itself fail.  `elapsed` is the duration measured around `client.Do`. -/
inductive TransportOutcome where
  | transportError (msg : String) (elapsed : Nat)
  | response (status : Nat) (headers : MultiMap)
      (bodyRead : Except String String) (elapsed : Nat)
deriving Repr

/-- The effectful environment of `Execute`: the `os.Stat` probe used by
validation, the `tls.LoadX509KeyPair` outcome, and the transport. -/
structure World where
  fileExists : String → Bool
  loadKeyPair : String → String → Except String Unit
  transport : BuiltRequest → TransportOutcome

def joinComma (vs : List String) : String := joinWithSep ", " vs

/-- Shallow embedding of `Execute`: validate, parse the URL, merge query
parameters, check the method (`http.NewRequest`), assemble headers and
auth, load the mTLS key pair when required, dispatch, and normalize.
Hard failures are `Except.error`; a transport failure is folded into the
returned `ResponseData` with the measured duration; a body-read failure
after a successful dispatch is returned as a hard error (`return nil,
err` in the source). -/
def executeModel (w : World) (r : RequestData) :
    Except String ResponseData :=
  match validate w.fileExists r with
  | .error e => .error e
  | .ok _ =>
    match parseURL r.url with
    | .error e => .error e
    | .ok baseURL =>
      if !validMethod r.method then
        .error ("net/http: invalid method " ++ r.method)
      else
        match (if r.auth.type = MutualTLSAuth then
                w.loadKeyPair r.auth.certFile r.auth.keyFile
              else .ok ()) with
        | .error e => .error ("failed to load client certificate: " ++ e)
        | .ok _ =>
          match w.transport
              ⟨r.method, urlString (mergeQueryParams baseURL r.queryParams),
               buildHeader r, r.body⟩ with
          | .transportError msg elapsed =>
            .ok { statusCode := 0, headers := [], body := "",
                  responseTime := elapsed, error := msg }
          | .response status respHeaders bodyRead elapsed =>
            match bodyRead with
            | .error e => .error e
            | .ok body =>
              .ok { statusCode := status,
                    headers :=
                      respHeaders.map (fun kv => (kv.1, joinComma kv.2)),
                    body := body, responseTime := elapsed, error := "" }

/-! ### JSON model (fragment of encoding/json used by the history store)

The model works on the JSON tree: the pretty-printing whitespace of
`MarshalIndent` is immaterial to the store's content. -/

inductive Json where
  | str (s : String)
  | obj (fields : List (String × Json))
  | arr (items : List Json)
deriving Repr

/-- An `omitempty`-tagged string field: omitted when empty. -/
def optField (k v : String) : List (String × Json) :=
  if v = "" then [] else [(k, Json.str v)]

def authFields (a : AuthData) : List (String × Json) :=
  ("type", Json.str a.type) ::
    (optField "username" a.username ++ (optField "password" a.password ++
     (optField "api_key" a.apiKey ++ (optField "cert_file" a.certFile ++
      optField "key_file" a.keyFile))))

/-- Marshalling of `AuthData` (tags: `type`, then `username,omitempty`,
`password,omitempty`, `api_key,omitempty`, `cert_file,omitempty`,
`key_file,omitempty`). -/
def encodeAuth (a : AuthData) : Json := .obj (authFields a)

def encodeStrMap (m : List (String × String)) : Json :=
  .obj (m.map (fun kv => (kv.1, Json.str kv.2)))

/-- Marshalling of `RequestData` (tags `method`, `url`, `headers`,
`query_params`, `body`, `timestamp`, `auth`); the `time.Time` is carried
as its serialized string. -/
def encodeRequestData (r : RequestData) : Json :=
  .obj [("method", .str r.method), ("url", .str r.url),
        ("headers", encodeStrMap r.headers),
        ("query_params", encodeStrMap r.queryParams),
        ("body", .str r.body), ("timestamp", .str r.timestamp),
        ("auth", encodeAuth r.auth)]

/-- `json.MarshalIndent(m.history, ...)` at the tree level. -/
def encodeHistory (h : List RequestData) : Json :=
  .arr (h.map encodeRequestData)

def jsonLookup (fields : List (String × Json)) (k : String) :
    Option Json :=
  match fields.find? (fun kv => kv.1 == k) with
  | some kv => some kv.2
  | none => none

/-- Unmarshalling of a string field: an absent field keeps the zero value
`""`; a present field must be a JSON string. -/
def getStr (fields : List (String × Json)) (k : String) : Option String :=
  match jsonLookup fields k with
  | none => some ""
  | some (.str s) => some s
  | some _ => none

def decodeStrMap : Json → Option (List (String × String))
  | .obj fields => fields.mapM (fun kv =>
      match kv.2 with
      | .str s => some (kv.1, s)
      | _ => none)
  | _ => none

/-- Unmarshalling of a map field: absent keeps the nil (empty) map. -/
def getStrMap (fields : List (String × Json)) (k : String) :
    Option (List (String × String)) :=
  match jsonLookup fields k with
  | none => some []
  | some v => decodeStrMap v

def decodeAuth : Json → Option AuthData
  | .obj fields => do
    let ty ← getStr fields "type"
    let un ← getStr fields "username"
    let pw ← getStr fields "password"
    let ak ← getStr fields "api_key"
    let cf ← getStr fields "cert_file"
    let kf ← getStr fields "key_file"
    pure ⟨ty, un, pw, ak, cf, kf⟩
  | _ => none

def decodeRequestData : Json → Option RequestData
  | .obj fields => do
    let m ← getStr fields "method"
    let u ← getStr fields "url"
    let hs ← getStrMap fields "headers"
    let qs ← getStrMap fields "query_params"
    let b ← getStr fields "body"
    let ts ← getStr fields "timestamp"
    let au ← (match jsonLookup fields "auth" with
              | none => some (⟨"", "", "", "", "", ""⟩ : AuthData)
              | some v => decodeAuth v)
    pure ⟨m, u, hs, qs, b, ts, au⟩
  | _ => none

/-- `json.Unmarshal(data, &m.history)` at the tree level. -/
def decodeHistory : Json → Option (List RequestData)
  | .arr items => items.mapM decodeRequestData
  | _ => none

/-! ### History store (internal/history, `Manager`) -/

structure Manager where
  filePath : String
  history : List RequestData

/-- `GetAll` returns the in-memory history. -/
def GetAll (m : Manager) : List RequestData := m.history

/-- `save` marshals the in-memory history (the file content written). -/
def save (h : List RequestData) : Json := encodeHistory h

/-- `Add`: append to the in-memory list first, then write the file.
`writeErr` is the outcome of `os.WriteFile` (`none` = success); `disk` is
the previous file content, returned unchanged when the write fails. -/
def Add (m : Manager) (req : RequestData) (writeErr : Option String)
    (disk : Json) : Manager × Json × Except String Unit :=
  let m2 : Manager := { m with history := m.history ++ [req] }
  match writeErr with
  | none => (m2, save m2.history, .ok ())
  | some e => (m2, disk, .error e)

/-- `Clear`: reset the in-memory list, then write the file. -/
def Clear (m : Manager) (writeErr : Option String) (disk : Json) :
    Manager × Json × Except String Unit :=
  let m2 : Manager := { m with history := [] }
  match writeErr with
  | none => (m2, save m2.history, .ok ())
  | some e => (m2, disk, .error e)

/-- `load` (as run by `NewManager`/`open`): unmarshal the file content. -/
def loadHistory (disk : Json) : Option (List RequestData) :=
  decodeHistory disk

/-! ### Direct-execution CLI (cmd main.go) -/

/-- The flags registered by `main` via `flag.String`: method, url,
headers, body.  The Go flag package rejects any other flag. -/
def definedFlags : List String := ["method", "url", "headers", "body"]

def trimSpace (s : String) : String :=
  String.mk (((s.toList.dropWhile Char.isWhitespace).reverse.dropWhile
    Char.isWhitespace).reverse)

/-- Go map assignment `m[k] = v` on the association-list model. -/
def mapSet (m : List (String × String)) (k v : String) :
    List (String × String) :=
  match m with
  | [] => [(k, v)]
  | kv :: rest =>
    if kv.1 == k then (kv.1, v) :: rest else kv :: mapSet rest k v

/-- Header-flag parsing in `executeDirectRequest`: split on commas, split
each pair at the first colon (`strings.SplitN(header, ":", 2)`), trim
both parts; pairs without a colon are skipped. -/
def parseHeadersFlag (headers : String) : List (String × String) :=
  if headers = "" then []
  else
    (splitOnStr headers ",").foldl (fun acc header =>
      match splitOnStr header ":" with
      | [] => acc
      | [_] => acc
      | k :: rest =>
        mapSet acc (trimSpace k) (trimSpace (joinWithSep ":" rest))) []

/-- The request constructed by `executeDirectRequest` from the four CLI
flags: `NewRequestData`, then method (default GET), url, body, parsed
headers.  The auth configuration is never touched. -/
def buildDirectRequest (now method url headers body : String) :
    RequestData :=
  let req := NewRequestData now
  let req := { req with
    method := if method = "" then "GET" else method,
    url := url, body := body, headers := parseHeadersFlag headers }
  req

/-! ### Lemmas about multi-valued maps -/

theorem mmGet_mmAdd_eq (m : MultiMap) (k v : String) :
    mmGet (mmAdd m k v) k = mmGet m k ++ [v] := by
  induction m with
  | nil => simp [mmGet, mmAdd, List.find?]
  | cons kv rest ih =>
    by_cases h : kv.1 = k
    · simp [mmGet, mmAdd, List.find?, h]
    · have h' : (kv.1 == k) = false := by simp [h]
      simp [mmGet, mmAdd, List.find?, h'] at ih ⊢
      exact ih

theorem mmGet_mmAdd_ne (m : MultiMap) (k v k2 : String) (h : k2 ≠ k) :
    mmGet (mmAdd m k v) k2 = mmGet m k2 := by
  have hkk : (k == k2) = false := by simp [Ne.symm h]
  induction m with
  | nil => simp [mmGet, mmAdd, List.find?, hkk]
  | cons kv rest ih =>
    by_cases hk : kv.1 = k
    · have h1 : (kv.1 == k) = true := by simp [hk]
      have h2 : (kv.1 == k2) = false := by simp [hk, Ne.symm h]
      simp [mmGet, mmAdd, List.find?, h1, h2, hkk]
    · have h1 : (kv.1 == k) = false := by simp [hk]
      by_cases hx : kv.1 = k2
      · have h2 : (kv.1 == k2) = true := by simp [hx]
        simp [mmGet, mmAdd, List.find?, h1, h2]
      · have h2 : (kv.1 == k2) = false := by simp [hx]
        simp [mmGet, mmAdd, List.find?, h1, h2] at ih ⊢
        exact ih

theorem mmGet_mmAddAll (m : MultiMap) (kvs : List (String × String))
    (f : String → String) (k : String) :
    mmGet (mmAddAll m kvs f) k =
      mmGet m k ++ (kvs.filter (fun kv => f kv.1 == k)).map (·.2) := by
  induction kvs generalizing m with
  | nil => simp [mmAddAll]
  | cons kv rest ih =>
    simp only [mmAddAll, List.foldl_cons] at ih ⊢
    rw [ih (mmAdd m (f kv.1) kv.2)]
    by_cases h : f kv.1 = k
    · subst h
      have h' : (f kv.1 == f kv.1) = true := by simp
      rw [mmGet_mmAdd_eq m (f kv.1) kv.2]
      simp [h', List.filter_cons]
    · have h' : (f kv.1 == k) = false := by simp [h]
      rw [mmGet_mmAdd_ne m (f kv.1) kv.2 k (Ne.symm h)]
      simp [h', List.filter_cons]

/-! ### Validation success gives a parsed URL -/

theorem validate_ok_parseURL {fe : String → Bool} {r : RequestData}
    (h : validate fe r = .ok ()) :
    ∃ u, parseURL r.url = .ok u ∧ u.scheme ≠ "" ∧ u.host ≠ "" := by
  unfold validate at h
  split at h
  · exact absurd h (by simp)
  · split at h
    · exact absurd h (by simp)
    · split at h
      next e heq => exact absurd h (by simp)
      next u heq =>
        split at h
        · exact absurd h (by simp)
        · next hsh =>
          refine ⟨u, heq, ?_, ?_⟩ <;> simp at hsh <;> tauto

/-! ### Concrete fixtures used by witnesses and counterexamples -/

/-- A plain unauthenticated GET request. -/
def reqNoAuthEx : RequestData :=
  { method := "GET", url := "https://api.example.com", headers := [],
    queryParams := [], body := "", timestamp := "",
    auth := ⟨NoAuth, "", "", "", "", ""⟩ }

/-- ApiKey-authenticated request whose user also set Authorization. -/
def reqApiKeyCollision : RequestData :=
  { method := "GET", url := "https://api.example.com",
    headers := [("Authorization", "user-token")], queryParams := [],
    body := "", timestamp := "",
    auth := ⟨APIKeyAuth, "", "", "abc", "", ""⟩ }

/-- World whose transport always fails (e.g. connection refused). -/
def wTransportFail : World :=
  ⟨fun _ => true, fun _ _ => .ok (),
   fun _ => .transportError "connection refused" 5⟩

/-- World whose dispatch succeeds but whose body drain fails. -/
def wBodyReadFail : World :=
  ⟨fun _ => true, fun _ _ => .ok (),
   fun _ => .response 200 [] (.error "unexpected EOF") 7⟩

/-- C1: `Validate` checks exactly the spec's ordered rule list —
method non-empty, url non-empty, url parses with scheme and host, then the
auth-specific rules (Basic: username then password; ApiKey: key;
MutualTLS: certFile non-empty, keyFile non-empty, certFile exists, keyFile
exists; None: nothing; unrecognized tag: invalid-auth-type) — returning
the error of the first failing rule, and succeeds iff every rule passes. -/
theorem validate_checks_rules_in_order (fileExists : String → Bool)
    (r : RequestData) :
    validate fileExists r = firstFailure (validationRules fileExists r) ∧
    (validate fileExists r = .ok () ↔
      ∀ rule ∈ validationRules fileExists r, rule.passes = true) := by
  refine ⟨validate_eq_firstFailure_aux fileExists r, ?_⟩
  rw [validate_eq_firstFailure_aux fileExists r]
  exact firstFailure_ok_iff _

/-! ### JSON round-trip lemmas -/

theorem decodeStrMap_encodeStrMap (m : List (String × String)) :
    decodeStrMap (encodeStrMap m) = some m := by
  induction m with
  | nil => rfl
  | cons kv rest ih =>
    simp only [encodeStrMap, List.map_cons, decodeStrMap,
      List.mapM_cons] at ih ⊢
    simp_all

theorem jsonLookup_nil (k : String) : jsonLookup [] k = none := rfl

theorem getStr_cons_ne (k2 k : String) (v : Json)
    (fields : List (String × Json)) (h : (k2 == k) = false) :
    getStr ((k2, v) :: fields) k = getStr fields k := by
  simp [getStr, jsonLookup, List.find?, h]

theorem jsonLookup_optField_ne (k2 k vs : String)
    (fields : List (String × Json)) (h : (k2 == k) = false) :
    jsonLookup (optField k2 vs ++ fields) k = jsonLookup fields k := by
  unfold optField
  split
  · simp
  · simp [jsonLookup, List.find?, h]

theorem jsonLookup_optField (k2 k vs : String) (h : (k2 == k) = false) :
    jsonLookup (optField k2 vs) k = none := by
  unfold optField
  split <;> simp [jsonLookup, List.find?, h]

theorem getStr_optField_ne (k2 k vs : String)
    (fields : List (String × Json)) (h : (k2 == k) = false) :
    getStr (optField k2 vs ++ fields) k = getStr fields k := by
  unfold getStr
  rw [jsonLookup_optField_ne _ _ _ _ h]

theorem getStr_optField_self (k vs : String)
    (fields : List (String × Json)) (hnone : jsonLookup fields k = none) :
    getStr (optField k vs ++ fields) k = some vs := by
  unfold getStr optField
  by_cases h : vs = ""
  · simp [h, hnone]
  · simp [h, jsonLookup, List.find?]

theorem getStr_authFields_type (a : AuthData) :
    getStr (authFields a) "type" = some a.type := by
  simp [authFields, getStr, jsonLookup, List.find?]

theorem getStr_authFields_username (a : AuthData) :
    getStr (authFields a) "username" = some a.username := by
  unfold authFields
  rw [getStr_cons_ne _ _ _ _ (by simp)]
  refine getStr_optField_self _ _ _ ?_
  rw [jsonLookup_optField_ne _ _ _ _ (by simp),
      jsonLookup_optField_ne _ _ _ _ (by simp),
      jsonLookup_optField_ne _ _ _ _ (by simp),
      jsonLookup_optField _ _ _ (by simp)]

theorem getStr_authFields_password (a : AuthData) :
    getStr (authFields a) "password" = some a.password := by
  unfold authFields
  rw [getStr_cons_ne _ _ _ _ (by simp),
      getStr_optField_ne _ _ _ _ (by simp)]
  refine getStr_optField_self _ _ _ ?_
  rw [jsonLookup_optField_ne _ _ _ _ (by simp),
      jsonLookup_optField_ne _ _ _ _ (by simp),
      jsonLookup_optField _ _ _ (by simp)]

theorem getStr_authFields_apiKey (a : AuthData) :
    getStr (authFields a) "api_key" = some a.apiKey := by
  unfold authFields
  rw [getStr_cons_ne _ _ _ _ (by simp),
      getStr_optField_ne _ _ _ _ (by simp),
      getStr_optField_ne _ _ _ _ (by simp)]
  refine getStr_optField_self _ _ _ ?_
  rw [jsonLookup_optField_ne _ _ _ _ (by simp),
      jsonLookup_optField _ _ _ (by simp)]

theorem getStr_authFields_certFile (a : AuthData) :
    getStr (authFields a) "cert_file" = some a.certFile := by
  unfold authFields
  rw [getStr_cons_ne _ _ _ _ (by simp),
      getStr_optField_ne _ _ _ _ (by simp),
      getStr_optField_ne _ _ _ _ (by simp),
      getStr_optField_ne _ _ _ _ (by simp)]
  refine getStr_optField_self _ _ _ ?_
  rw [jsonLookup_optField _ _ _ (by simp)]

theorem getStr_authFields_keyFile (a : AuthData) :
    getStr (authFields a) "key_file" = some a.keyFile := by
  unfold authFields
  rw [getStr_cons_ne _ _ _ _ (by simp),
      getStr_optField_ne _ _ _ _ (by simp),
      getStr_optField_ne _ _ _ _ (by simp),
      getStr_optField_ne _ _ _ _ (by simp),
      getStr_optField_ne _ _ _ _ (by simp),
      ← List.append_nil (optField "key_file" a.keyFile)]
  exact getStr_optField_self _ _ _ rfl

theorem decodeAuth_encodeAuth (a : AuthData) :
    decodeAuth (encodeAuth a) = some a := by
  obtain ⟨ty, un, pw, ak, cf, kf⟩ := a
  simp [decodeAuth, encodeAuth, getStr_authFields_type,
    getStr_authFields_username, getStr_authFields_password,
    getStr_authFields_apiKey, getStr_authFields_certFile,
    getStr_authFields_keyFile]

theorem decodeRequestData_encodeRequestData (r : RequestData) :
    decodeRequestData (encodeRequestData r) = some r := by
  obtain ⟨m, u, hs, qs, b, ts, au⟩ := r
  simp [decodeRequestData, encodeRequestData, getStr, getStrMap,
    jsonLookup, List.find?, decodeStrMap_encodeStrMap,
    decodeAuth_encodeAuth]

theorem decodeHistory_encodeHistory (h : List RequestData) :
    decodeHistory (encodeHistory h) = some h := by
  induction h with
  | nil => rfl
  | cons r rest ih =>
    simp only [encodeHistory, decodeHistory, List.map_cons,
      List.mapM_cons] at ih ⊢
    simp_all [decodeRequestData_encodeRequestData]

/-- C2: for a validated request whose dispatch fails at the transport
level, `Execute` returns a successful (non-error) result carrying the
non-empty transport error message, status code 0, and the measured
elapsed time. -/
theorem execute_transport_failure_is_soft (w : World) (r : RequestData)
    (msg : String) (t : Nat)
    (hval : validate w.fileExists r = .ok ())
    (hmeth : validMethod r.method = true)
    (hcert : r.auth.type = MutualTLSAuth →
      w.loadKeyPair r.auth.certFile r.auth.keyFile = .ok ())
    (hmsg : msg ≠ "")
    (htr : ∀ req, w.transport req = .transportError msg t) :
    executeModel w r =
      .ok { statusCode := 0, headers := [], body := "",
            responseTime := t, error := msg } ∧ msg ≠ "" := by
  obtain ⟨u, hp, -, -⟩ := validate_ok_parseURL hval
  refine ⟨?_, hmsg⟩
  by_cases hmt : r.auth.type = MutualTLSAuth
  · simp [executeModel, hval, hp, hmeth, hmt, hcert hmt, htr]
  · simp [executeModel, hval, hp, hmeth, hmt, htr]

/-- Witness for C2 at a concrete refused connection. -/
theorem execute_transport_failure_is_soft_witness :
    executeModel wTransportFail reqNoAuthEx =
      .ok { statusCode := 0, headers := [], body := "",
            responseTime := 5, error := "connection refused" } ∧
    "connection refused" ≠ "" :=
  execute_transport_failure_is_soft wTransportFail reqNoAuthEx
    "connection refused" 5 rfl rfl
    (fun hmt => absurd hmt (by decide)) (by decide) (fun _ => rfl)

/-- Counterexample for C3: a failure while draining the response body
(`io.ReadAll`) is returned as a hard error, not folded into the
`ResponseData`. -/
theorem execute_body_read_failure_is_hard :
    executeModel wBodyReadFail reqNoAuthEx = .error "unexpected EOF" := by
  rfl

/-- C3 as amended: a dispatch-level transport failure is folded into the
returned `ResponseData`, but a failure while draining the response body
after a successful dispatch is returned as a hard error (alongside the
hard errors from validation, URL parsing, request construction, and
MutualTLS certificate loading). -/
theorem execute_soft_hard_error_split (w : World) (r : RequestData)
    (hval : validate w.fileExists r = .ok ())
    (hmeth : validMethod r.method = true)
    (hcert : r.auth.type = MutualTLSAuth →
      w.loadKeyPair r.auth.certFile r.auth.keyFile = .ok ()) :
    (∀ msg t, (∀ req, w.transport req = .transportError msg t) →
      executeModel w r =
        .ok { statusCode := 0, headers := [], body := "",
              responseTime := t, error := msg }) ∧
    (∀ st hs e t,
      (∀ req, w.transport req = .response st hs (.error e) t) →
      executeModel w r = .error e) := by
  obtain ⟨u, hp, -, -⟩ := validate_ok_parseURL hval
  constructor
  · intro msg t htr
    by_cases hmt : r.auth.type = MutualTLSAuth
    · simp [executeModel, hval, hp, hmeth, hmt, hcert hmt, htr]
    · simp [executeModel, hval, hp, hmeth, hmt, htr]
  · intro st hs e t htr
    by_cases hmt : r.auth.type = MutualTLSAuth
    · simp [executeModel, hval, hp, hmeth, hmt, hcert hmt, htr]
    · simp [executeModel, hval, hp, hmeth, hmt, htr]

/-- Witness for the amended C3 at a concrete body-read failure. -/
theorem execute_soft_hard_error_split_witness :
    executeModel wBodyReadFail reqNoAuthEx = .error "unexpected EOF" :=
  (execute_soft_hard_error_split wBodyReadFail reqNoAuthEx rfl rfl
    (fun hmt => absurd hmt (by decide))).2 200 [] "unexpected EOF" 7
    (fun _ => rfl)

/-- C4: on every return path of `Execute`, a populated transport error
implies status code 0. -/
theorem transportError_implies_statusCode_zero (w : World)
    (r : RequestData) (res : ResponseData)
    (h : executeModel w r = .ok res) (herr : res.error ≠ "") :
    res.statusCode = 0 := by
  unfold executeModel at h
  split at h
  · exact absurd h (by simp)
  · split at h
    · exact absurd h (by simp)
    · split at h
      · exact absurd h (by simp)
      · split at h
        · exact absurd h (by simp)
        · split at h
          · simp only [Except.ok.injEq] at h
            subst h
            rfl
          · split at h
            · exact absurd h (by simp)
            · simp only [Except.ok.injEq] at h
              subst h
              exact absurd rfl herr

/-- Witness for C4 at a concrete transport failure. -/
theorem transportError_implies_statusCode_zero_witness :
    executeModel wTransportFail reqNoAuthEx =
      .ok { statusCode := 0, headers := [], body := "",
            responseTime := 5, error := "connection refused" } ∧
    ({ statusCode := 0, headers := [], body := "", responseTime := 5,
       error := "connection refused" } : ResponseData).error ≠ "" ∧
    ({ statusCode := 0, headers := [], body := "", responseTime := 5,
       error := "connection refused" } : ResponseData).statusCode = 0 :=
  ⟨rfl, by decide,
    transportError_implies_statusCode_zero wTransportFail reqNoAuthEx _
      rfl (by decide)⟩

/-- Counterexample for C5: with a user-supplied Authorization header, the
ApiKey bearer value is appended after the user's value — the header ends
with both values, the user's first, so the injected value is neither the
single value nor the one `Header.Get` reports. -/
theorem apikey_auth_header_not_last_set_wins :
    headerValues (buildHeader reqApiKeyCollision) "Authorization" =
      ["user-token", "Bearer abc"] ∧
    headerValues (buildHeader reqApiKeyCollision) "Authorization" ≠
      ["Bearer abc"] ∧
    headerGet (buildHeader reqApiKeyCollision) "Authorization" ≠
      "Bearer abc" := by
  refine ⟨rfl, by decide, by decide⟩

/-- C5 as amended: for an ApiKey request past validation, `Execute`
appends `Authorization: Bearer <key>` to the outbound header values; any
user-supplied Authorization values are preserved in front of it, so the
injected value is last in the value list rather than replacing them. -/
theorem apikey_auth_appends_bearer_header (r : RequestData)
    (hk : r.auth.type = APIKeyAuth) (hkey : r.auth.apiKey ≠ "") :
    headerValues (buildHeader r) "Authorization" =
      (r.headers.filter
        (fun kv => canonicalMIMEHeaderKey kv.1 == "Authorization")).map
        (fun kv => kv.2) ++ ["Bearer " ++ r.auth.apiKey] := by
  have hnb : ¬r.auth.type = BasicAuth := by
    rw [hk]; decide
  have hkey' : (r.auth.apiKey != "") = true := by simp [hkey]
  have hbase :
      r.headers.foldl (fun h kv => headerAdd h kv.1 kv.2) [] =
        mmAddAll [] r.headers canonicalMIMEHeaderKey := rfl
  unfold buildHeader
  rw [if_neg hnb, if_pos hk, if_pos hkey', hbase]
  unfold headerValues headerAdd
  have hcanon : canonicalMIMEHeaderKey "Authorization" = "Authorization" :=
    rfl
  rw [hcanon, mmGet_mmAdd_eq, mmGet_mmAddAll]
  simp [mmGet]

/-- Witness for the amended C5 at the colliding-header request. -/
theorem apikey_auth_appends_bearer_header_witness :
    headerValues (buildHeader reqApiKeyCollision) "Authorization" =
      ["user-token"] ++ ["Bearer abc"] := by
  have h := apikey_auth_appends_bearer_header reqApiKeyCollision rfl
    (by decide)
  simpa using h

/-- C6: `Execute` merges queryParams additively into the URL's existing
query string — at the parsed-values level every pre-existing value is
preserved and each mapped pair is appended at its key — and on the spec's
example (`https://x.test/p?a=1` with `{b: "2"}`) the dispatched URL's
query string contains both `a=1` and `b=2`. -/
theorem execute_merges_query_params_additively :
    (∀ (raw : String) (params : List (String × String)) (k : String),
      mmGet (mmAddAll (parseQuery raw) params id) k =
        mmGet (parseQuery raw) k ++
          (params.filter (fun kv => kv.1 == k)).map (fun kv => kv.2)) ∧
    (mergeQueryParams ⟨"https", "x.test", "/p", "a=1"⟩
      [("b", "2")]).rawQuery = "a=1&b=2" ∧
    urlString (mergeQueryParams ⟨"https", "x.test", "/p", "a=1"⟩
      [("b", "2")]) = "https://x.test/p?a=1&b=2" := by
  refine ⟨?_, rfl, rfl⟩
  intro raw params k
  simpa using mmGet_mmAddAll (parseQuery raw) params id k

/-- C7: a request appended to the history store and re-loaded from the
written file round-trips — the reloaded history is exactly the old
history with the request appended, whose final entry is the appended
request (and so agrees with it on method, url, body, and headers). -/
theorem history_add_roundtrip (m : Manager) (req : RequestData) :
    loadHistory (Add m req none (save m.history)).2.1 =
      some (m.history ++ [req]) ∧
    (m.history ++ [req]).getLast? = some req := by
  refine ⟨?_, by simp⟩
  simp [Add, save, loadHistory, decodeHistory_encodeHistory]

/-- C8: after a successful `Clear`, `GetAll` returns the empty sequence
and the persisted file holds exactly an empty JSON array. -/
theorem history_clear_empties (m : Manager) (disk : Json) :
    GetAll (Clear m none disk).1 = [] ∧
    (Clear m none disk).2.1 = Json.arr [] := by
  exact ⟨rfl, rfl⟩

/-- C10: `Add` is not atomic with respect to write failure — the entry is
appended in memory before the write, so on a failed write the error is
returned while `GetAll` already includes the entry, the disk content is
unchanged, and memory diverges from what the disk decodes to. -/
theorem history_add_not_atomic (m : Manager) (req : RequestData)
    (e : String) :
    GetAll (Add m req (some e) (save m.history)).1 =
      m.history ++ [req] ∧
    req ∈ GetAll (Add m req (some e) (save m.history)).1 ∧
    (Add m req (some e) (save m.history)).2.2 = .error e ∧
    (Add m req (some e) (save m.history)).2.1 = save m.history ∧
    loadHistory (Add m req (some e) (save m.history)).2.1 ≠
      some (GetAll (Add m req (some e) (save m.history)).1) := by
  refine ⟨rfl, by simp [Add, GetAll], rfl, rfl, ?_⟩
  simp only [Add, GetAll, save, loadHistory,
    decodeHistory_encodeHistory, Option.some.injEq]
  intro hc
  rw [Option.some.injEq] at hc
  have hlen := congrArg List.length hc
  simp at hlen

/-- Counterexample for C9: the direct-execution CLI registers none of the
authentication flags — its flag set is exactly method, url, headers,
body — and a direct-mode request is always built with auth None. -/
theorem cli_has_no_auth_flags :
    definedFlags.contains "auth-type" = false ∧
    definedFlags.contains "auth-username" = false ∧
    definedFlags.contains "auth-password" = false ∧
    definedFlags.contains "auth-apikey" = false ∧
    definedFlags.contains "auth-cert" = false ∧
    definedFlags.contains "auth-key" = false ∧
    (buildDirectRequest "" "GET" "https://api.example.com" "" "").auth.type
      = NoAuth := by
  refine ⟨rfl, rfl, rfl, rfl, rfl, rfl, rfl⟩

/-- C9 as amended: the direct-execution CLI accepts only `--method`,
`--url`, `--headers`, `--body`; every request it constructs carries the
default None authentication strategy — authentication is configurable
only in the interactive TUI. -/
theorem cli_direct_requests_have_no_auth :
    definedFlags = ["method", "url", "headers", "body"] ∧
    ∀ now method url headers body,
      (buildDirectRequest now method url headers body).auth =
        ⟨NoAuth, "", "", "", "", ""⟩ :=
  ⟨rfl, fun _ _ _ _ _ => rfl⟩

end Lighttr
